import Mathlib

/-!
Verification development for the `LaneLines.py` lane-line detector.

The Python source (src/LaneLines.py) is shallowly embedded below:
 - a binary image is a list of rows, each row a list of natural pixel values
   (foreground = nonzero), matching a 2-D numpy array in row-major order;
 - numpy integer arithmetic is embedded as `Int`, numpy float arithmetic as
   exact rationals `ℚ` (float rounding error is outside the model);
 - Python exceptions (`ValueError` from `np.argmax` on an empty slice,
   `IndexError` from an out-of-range `shape` access, `AssertionError` from
   `assert len(img.shape) == 2`) are embedded as an `Except Err` result;
 - the cv2 raster drawing calls (`cv2.line`, `cv2.circle`) are embedded as a
   recorded trace of drawing operations on top of the replicated base image,
   since no claim inspects the rasterised pixels themselves;
 - the detector object is a record `LaneLines`; the mutating methods become
   functions from the record to an updated record.

The module `constants.py` (providing `NWINDOWS`, `MARGIN`, `MINPIX`, `WIDTH`,
`HEIGHT`) is not part of the sources; those values are carried as parameters,
see `mkLaneLines` and `Consts` below.
-/

namespace LaneDetect

deriving instance DecidableEq for Except

attribute [local semireducible] Rat.add Rat.mul Rat.sub Rat.inv

/-- A 2-D binary image: rows of pixel values, top row first (numpy row-major).
`img.length` is `img.shape[0]` (height); for a rectangular image every row has
length `img.shape[1]` (width). -/
abbrev Img := List (List Nat)

/-- Coefficients `(a, b, c)` of a fitted polynomial `x = a*y^2 + b*y + c`,
highest degree first as returned by `np.polyfit(·, ·, 2)`. -/
abbrev Poly := ℚ × ℚ × ℚ

/-- The Python exceptions that the embedded pipeline can raise:
`ValueError` from `np.argmax` on an empty slice, `IndexError` from a tuple
index out of range, `AssertionError` from a failed `assert`. -/
inductive Err where
  | valueError : Err
  | indexError : Err
  | assertionError : Err
deriving DecidableEq

/-- Modelled from the spec: module `constants.py` is not among the sources;
§6 of the spec describes two module-level constants `WIDTH`, `HEIGHT` (the
reference image size; `HEIGHT` is the reference row of the center estimate).
They are carried as an explicit parameter record. -/
structure Consts where
  WIDTH : Nat
  HEIGHT : Nat
deriving DecidableEq

/-- State of a `LaneLines` detector instance (`LaneLines.__init__`).
`left_fit`/`right_fit` persist across calls; `nonzerox`, `nonzeroy`, `width`,
`height`, `window_height` are the per-call caches written by
`extract_features`.  The hyperparameters `nwindows`, `margin`, `minpix` are
fixed at construction (their values come from the absent `constants.py`, so
they stay abstract).  The dead fields of the Python object (`binary`,
`clear_visibility`, `dir`, the stored `img`) are never read and are omitted. -/
structure LaneLines where
  left_fit : Option Poly
  right_fit : Option Poly
  nonzerox : List Int
  nonzeroy : List Int
  width : Nat
  height : Nat
  window_height : Nat
  nwindows : Nat
  margin : Nat
  minpix : Nat
deriving DecidableEq

/-- `LaneLines.__init__`: fresh detector with undefined curves and the three
hyperparameters `NWINDOWS`, `MARGIN`, `MINPIX` taken as arguments (modelled
from the spec, since `constants.py` is absent from the sources). -/
def mkLaneLines (nw m mp : Nat) : LaneLines :=
  { left_fit := none, right_fit := none, nonzerox := [], nonzeroy := [],
    width := 0, height := 0, window_height := 0,
    nwindows := nw, margin := m, minpix := mp }

/-- Positions of the nonzero entries of one row (`x` coordinates), left to
right. -/
def rowNonzero (row : List Nat) : List Nat :=
  (row.enum.filter fun p => p.2 != 0).map Prod.fst

/-- `img.nonzero()`: the `(y, x)` coordinates of all nonzero pixels in numpy
row-major order (row by row, left to right inside a row). -/
def nonzeroPixels (img : Img) : List (Nat × Nat) :=
  img.enum.flatMap fun r => (rowNonzero r.2).map fun x => (r.1, x)

/-- Columnwise sum of a stack of rows (`np.sum(·, axis=0)`).  On an empty
stack numpy would return a row of zeros of the stack's width; a list of lists
does not know that width, so the empty case returns `[]` — the pipeline only
applies this to the nonempty bottom half of a nonempty image. -/
def colSum : List (List Nat) → List Nat
  | [] => []
  | [r] => r
  | r :: rs => List.zipWith (· + ·) r (colSum rs)

/-- `hist(img)` (LaneLines.py lines 5-7): columnwise sum of the bottom half
`img[img.shape[0]//2:, :]` of the image. -/
def hist (img : Img) : List Nat :=
  colSum (img.drop (img.length / 2))

/-- Auxiliary scan for `argmaxList`: current index, best index so far, best
value so far; a later value replaces the best only when strictly greater,
matching `np.argmax` returning the first occurrence of the maximum. -/
def argmaxAux : List Nat → Nat → Nat → Nat → Nat
  | [], _, bi, _ => bi
  | v :: t, i, bi, bv => if bv < v then argmaxAux t (i + 1) i v else argmaxAux t (i + 1) bi bv

/-- `np.argmax` on a 1-D array: index of the first maximal entry, `none` on an
empty array (numpy raises `ValueError` there). -/
def argmaxList : List Nat → Option Nat
  | [] => none
  | v :: t => some (argmaxAux t 1 0 v)

/-- Python slice `l[:stop]` for an `Int` stop: a nonnegative stop keeps the
first `stop` elements, a negative stop drops the last `-stop` elements. -/
def pySliceTo (stop : Int) (l : List α) : List α :=
  if 0 ≤ stop then l.take stop.toNat else l.take (l.length - stop.natAbs)

/-- The slice `histogram[:(midpoint-50)]` searched for the left base
(LaneLines.py line 114); `midpoint - 50` is Python `int` arithmetic and may be
negative or zero. -/
def leftHalf (img : Img) : List Nat :=
  pySliceTo ((((hist img).length / 2 : Nat) : Int) - 50) (hist img)

/-- The slice `histogram[midpoint+50:]` searched for the right base
(LaneLines.py line 115). -/
def rightHalf (img : Img) : List Nat :=
  (hist img).drop ((hist img).length / 2 + 50)

/-- `np.argmax(histogram[:(midpoint-50)])`: the left base seed, `none` when
the slice is empty (numpy `ValueError`). -/
def leftBase (img : Img) : Option Nat :=
  argmaxList (leftHalf img)

/-- `np.argmax(histogram[midpoint+50:]) + midpoint+50`: the right base seed,
`none` when the slice is empty (numpy `ValueError`). -/
def rightBase (img : Img) : Option Nat :=
  (argmaxList (rightHalf img)).map fun i => i + (hist img).length / 2 + 50

/-- `LaneLines.extract_features` (lines 76-91): record the window height,
image dimensions and the coordinate arrays of the nonzero pixels.
`img.shape[1]` of a rectangular numpy array is the common row length, taken
here from the first row. -/
def extract_features (s : LaneLines) (img : Img) : LaneLines :=
  let nz := nonzeroPixels img
  { s with
    window_height := img.length / s.nwindows,
    width := (img.head?.map List.length).getD 0,
    height := img.length,
    nonzerox := nz.map fun q => (q.2 : Int),
    nonzeroy := nz.map fun q => (q.1 : Int) }

/-- The window membership test of `LaneLines.pixels_in_window` (lines 69-73):
`condx & condy` for the closed rectangle
`[centerX-margin, centerX+margin] × [centerY-height//2, centerY+height//2]`. -/
def inWindow (center : Int × Int) (margin : Nat) (height : Nat) (q : Int × Int) : Bool :=
  decide (center.1 - (margin : Int) ≤ q.1) && decide (q.1 ≤ center.1 + (margin : Int)) &&
  decide (center.2 - ((height / 2 : Nat) : Int) ≤ q.2) &&
  decide (q.2 ≤ center.2 + ((height / 2 : Nat) : Int))

/-- `LaneLines.pixels_in_window` (lines 57-74): the `x` and `y` coordinate
arrays of the cached nonzero pixels lying in the window.  Both arrays are
filtered by the same boolean mask. -/
def pixels_in_window (s : LaneLines) (center : Int × Int) (margin : Nat) (height : Nat) :
    List Int × List Int :=
  let sel := (List.zip s.nonzerox s.nonzeroy).filter (inWindow center margin height)
  (sel.map Prod.fst, sel.map Prod.snd)

/-- Mutable state of the sliding-window loop of `find_lane_pixels`:
current window centers `lc`, `rc`, vertical cursor `yc`, and the four
accumulator lists. -/
structure WinAcc where
  lc : Int
  rc : Int
  yc : Int
  lx : List Int
  ly : List Int
  rx : List Int
  ry : List Int
deriving DecidableEq

/-- One iteration of the sliding-window loop (lines 128-146): move the cursor
up one band, collect the pixels inside each side's window, append them to the
accumulators, and recenter a side to the truncated mean of the found `x`
coordinates exactly when strictly more than `minpix` pixels were found
(`int(np.mean(...))`; `Int.tdiv` truncates toward zero as Python `int` does). -/
def bandStep (s : LaneLines) (w : WinAcc) : WinAcc :=
  let yc := w.yc - (s.window_height : Int)
  let gl := pixels_in_window s (w.lc, yc) s.margin s.window_height
  let gr := pixels_in_window s (w.rc, yc) s.margin s.window_height
  { lc := if s.minpix < gl.1.length then Int.tdiv gl.1.sum (gl.1.length : Int) else w.lc,
    rc := if s.minpix < gr.1.length then Int.tdiv gr.1.sum (gr.1.length : Int) else w.rc,
    yc := yc,
    lx := w.lx ++ gl.1, ly := w.ly ++ gl.2,
    rx := w.rx ++ gr.1, ry := w.ry ++ gr.2 }

/-- `LaneLines.find_lane_pixels` (lines 93-149): base seeds from the
bottom-half histogram, then `nwindows` sliding-window iterations starting one
half band below the image.  Returns the four coordinate lists and the
visualization base `out_img = np.dstack((img, img, img))`, represented by its
(identical) single channel.  A `none` from either `np.argmax` is the numpy
`ValueError`; the `assert len(img.shape) == 2` always holds for an `Img` (see
`forwardNd` for inputs of other ranks). -/
def find_lane_pixels (s : LaneLines) (img : Img) :
    Except Err (List Int × List Int × List Int × List Int × Img) :=
  match leftBase img, rightBase img with
  | some lb, some rb =>
    let w0 : WinAcc :=
      { lc := (lb : Int), rc := (rb : Int),
        yc := (img.length : Int) + ((s.window_height / 2 : Nat) : Int),
        lx := [], ly := [], rx := [], ry := [] }
    let fin := (List.range s.nwindows).foldl (fun w _ => bandStep s w) w0
    .ok (fin.lx, fin.ly, fin.rx, fin.ry, img)
  | _, _ => .error .valueError

/-- The mirroring step of `fit_poly` (lines 163-168): when the left list has
strictly fewer points than the right, the left side is rebuilt as
`x - 800` over the right `x` list with the right `y` list; otherwise
(including equal counts) the right side is rebuilt as `x + 800` over the left
`x` list with the left `y` list. -/
def mirrorStep (lx ly rx ry : List Int) : List Int × List Int × List Int × List Int :=
  if ly.length < ry.length then (rx.map (fun x => x - 800), ry, rx, ry)
  else (lx, ly, lx.map (fun x => x + 800), ly)

/-- 3×3 determinant by cofactor expansion along the first row. -/
def det3 (a b c d e f g h i : ℚ) : ℚ :=
  a * (e * i - f * h) - b * (d * i - f * g) + c * (d * h - e * g)

/-- Power sum of the sample positions of a paired sample list (the `S_k`
moments of the quadratic normal equations). -/
def momZS (z : List (Int × Int)) (k : Nat) : ℚ :=
  (z.map fun p => ((p.1 : ℚ)) ^ k).sum

/-- Weighted power sum of a paired sample list (the `T_k` moments of the
quadratic normal equations). -/
def momZT (z : List (Int × Int)) (k : Nat) : ℚ :=
  (z.map fun p => ((p.2 : ℚ)) * ((p.1 : ℚ)) ^ k).sum

/-- `np.polyfit(ys, xs, 2)`: the least-squares quadratic `x = a*y^2 + b*y + c`,
computed exactly over `ℚ` from the normal equations by Cramer's rule.  This
coincides with numpy's least-squares fit whenever the problem has full rank
(at least three distinct sample positions), which covers every fit the claims
exercise; on a rank-deficient system it returns `(0, 0, 0)` where numpy would
return a minimum-norm solution. -/
def polyfit (ys xs : List Int) : Poly :=
  let z := List.zip ys xs
  let s0 : ℚ := (z.length : ℚ)
  let det := det3 (momZS z 4) (momZS z 3) (momZS z 2)
                  (momZS z 3) (momZS z 2) (momZS z 1)
                  (momZS z 2) (momZS z 1) s0
  if det = 0 then (0, 0, 0)
  else (det3 (momZT z 2) (momZS z 3) (momZS z 2)
             (momZT z 1) (momZS z 2) (momZS z 1)
             (momZT z 0) (momZS z 1) s0 / det,
        det3 (momZS z 4) (momZT z 2) (momZS z 2)
             (momZS z 3) (momZT z 1) (momZS z 1)
             (momZS z 2) (momZT z 0) s0 / det,
        det3 (momZS z 4) (momZS z 3) (momZT z 2)
             (momZS z 3) (momZS z 2) (momZT z 1)
             (momZS z 2) (momZS z 1) (momZT z 0) / det)

/-- The two conditional fits of `fit_poly` (lines 172-175): a side's curve
field is reassigned to `np.polyfit(y, x, 2)` exactly when that side's
(possibly mirrored) point count strictly exceeds 500; otherwise the field
keeps whatever value it had (the previous call's fit, or `None` on a fresh
detector). -/
def fitStep (s : LaneLines) (lx ly rx ry : List Int) : LaneLines :=
  let s₁ := if 500 < ly.length then { s with left_fit := some (polyfit ly lx) } else s
  if 500 < ry.length then { s₁ with right_fit := some (polyfit ry rx) } else s₁

/-- Evaluation of a fitted curve at a sample position:
`fit[0]*y**2 + fit[1]*y + fit[2]`. -/
def evalPoly (p : Poly) (t : ℚ) : ℚ :=
  p.1 * t ^ 2 + p.2.1 * t + p.2.2

/-- Dot product of a coefficient triple with a value triple (`np.dot`). -/
def dot3 (p : Poly) (v : ℚ × ℚ × ℚ) : ℚ :=
  p.1 * v.1 + p.2.1 * v.2.1 + p.2.2 * v.2.2

/-- `LaneLines.measure_center` (lines 216-219): evaluate both fits at the
reference row `HEIGHT` via `np.dot(fit, [HEIGHT**2, HEIGHT, 1])` and return
`int((xl + xr) // 2)`.  Float floor-division followed by `int` of an integral
float is exactly `Int.floor` of the rational midpoint.  The Python method
reads `self.left_fit`/`self.right_fit`; they are passed as arguments here and
are non-`None` at every reachable call site. -/
def measure_center (c : Consts) (lf rf : Poly) : Int :=
  let xl := dot3 lf (((c.HEIGHT : ℚ)) ^ 2, ((c.HEIGHT : ℚ), 1))
  let xr := dot3 rf (((c.HEIGHT : ℚ)) ^ 2, ((c.HEIGHT : ℚ), 1))
  Int.floor ((xl + xr) / 2)

/-- Python `int()` of an exact rational: truncation toward zero. -/
def pytrunc (q : ℚ) : Int :=
  Int.tdiv q.num (q.den : Int)

/-- `np.linspace a b n` with the default inclusive endpoint. -/
def pyLinspace (a b : ℚ) (n : Nat) : List ℚ :=
  if n = 0 then []
  else if n = 1 then [a]
  else (List.range n).map fun i => a + (b - a) * (i : ℚ) / ((n : ℚ) - 1)

/-- The annotated output image of a successful call: the `np.dstack` base
(all three channels equal to `base`), the `cv2.line` segments
`(l, r, y)` drawn at each sampled row, and the optional `cv2.circle` marker
`(pos, HEIGHT)`. -/
structure RgbImage where
  base : Img
  lines : List (Int × Int × Int)
  circle : Option (Int × Nat)
deriving DecidableEq

/-- An image returned by `fit_poly`: either the untouched 2-D input (the
`except` branch returns `img` itself) or the annotated three-channel image. -/
inductive OutImage where
  | gray : Img → OutImage
  | rgb : RgbImage → OutImage
deriving DecidableEq

/-- The rendering tail of `fit_poly` (lines 183-214).  The `maxy`/`miny`
computation of lines 184-192 is dead (both are overwritten by `miny = 0`,
`maxy = self.height` on lines 194-195) and is omitted.  The
`try`/`except` around the two curve evaluations fails exactly when a fit is
still `None` (a `TypeError` caught by the bare `except`), returning the raw
input image with `False` and offset `0`; otherwise the curves are sampled on
`np.linspace(0, self.height, img.shape[0])`, the connecting segments and the
optional center marker are drawn, and `(out_img, True, pos)` is returned. -/
def renderStep (c : Consts) (s : LaneLines) (img : Img) (out0 : Img) :
    LaneLines × OutImage × Bool × Int :=
  match s.left_fit, s.right_fit with
  | some lf, some rf =>
    let ploty := pyLinspace 0 (s.height : ℚ) img.length
    let segs := ploty.map fun t => (pytrunc (evalPoly lf t), pytrunc (evalPoly rf t), pytrunc t)
    let pos := measure_center c lf rf
    let circ := if 0 ≤ pos ∧ pos ≤ (c.WIDTH : Int) then some (pos, c.HEIGHT) else none
    (s, .rgb { base := out0, lines := segs, circle := circ }, true, pos)
  | _, _ => (s, .gray img, false, 0)

/-- The pixel-collecting, mirroring and fitting prefix of `fit_poly`
(lines 161-175): everything before the rendering tail.  Returns the updated
detector state and the visualization base. -/
def fitPrep (s : LaneLines) (img : Img) : Except Err (LaneLines × Img) :=
  match find_lane_pixels s img with
  | .error e => .error e
  | .ok (lx, ly, rx, ry, out0) =>
    let m := mirrorStep lx ly rx ry
    .ok (fitStep s m.1 m.2.1 m.2.2.1 m.2.2.2, out0)

/-- `LaneLines.fit_poly` (lines 151-214): collect, mirror, fit, then render. -/
def fit_poly (c : Consts) (s : LaneLines) (img : Img) :
    Except Err (LaneLines × OutImage × Bool × Int) :=
  match fitPrep s img with
  | .error e => .error e
  | .ok (s₂, out0) => .ok (renderStep c s₂ img out0)

/-- `LaneLines.forward` (lines 45-55) on a 2-D image:
`extract_features` then `fit_poly`. -/
def forward (c : Consts) (s : LaneLines) (img : Img) :
    Except Err (LaneLines × OutImage × Bool × Int) :=
  fit_poly c (extract_features s img) img

/-- The state-and-base prefix of a whole `forward` call (everything except
the rendering tail, which is the only part reading `Consts`). -/
def prep (s : LaneLines) (img : Img) : Except Err (LaneLines × Img) :=
  fitPrep (extract_features s img) img

/-- An input of arbitrary numpy rank: a scalar cell or a list of sub-arrays. -/
inductive Nd where
  | cell : Nat → Nd
  | dim : List Nd → Nd

/-- Number of axes (`len(a.shape)`); numpy arrays are regular, so the rank is
read along the first component. -/
def ndim : Nd → Nat
  | .cell _ => 0
  | .dim [] => 1
  | .dim (x :: _) => 1 + ndim x

/-- The 2-D image carried by a rank-2 array (junk on other ranks, which never
reach it). -/
def toImg (a : Nd) : Img :=
  match a with
  | .dim rows => rows.map fun r =>
      match r with
      | .dim cells => cells.map fun v => match v with | .cell n => n | .dim _ => 0
      | .cell _ => []
  | .cell _ => []

/-- `LaneLines.forward` on an input of arbitrary rank, with the failure points
of the source in their order of evaluation: `extract_features` reads
`img.shape[0]` (line 84) and `img.shape[1]` (line 85), raising `IndexError`
when the rank is 0 or 1; `find_lane_pixels` then asserts
`len(img.shape) == 2` (line 106), raising `AssertionError` for rank 3 or
more; a rank-2 input runs the 2-D pipeline. -/
def forwardNd (c : Consts) (s : LaneLines) (a : Nd) :
    Except Err (LaneLines × OutImage × Bool × Int) :=
  if ndim a = 0 then .error .indexError
  else if ndim a = 1 then .error .indexError
  else if ndim a = 2 then forward c s (toImg a)
  else .error .assertionError

/-! ### Concrete inputs used by witnesses and counterexamples -/

/-- An all-zero image of 2 rows and 110 columns. -/
def zeros110 : Img := List.replicate 2 (List.replicate 110 0)

/-- A fresh detector with `nwindows = 1`, `margin = 50`, `minpix = 50`. -/
def freshS : LaneLines := mkLaneLines 1 50 50

/-- A detector carrying the fits `x = 5` and `x = 7` from an earlier call. -/
def staleS : LaneLines :=
  { freshS with left_fit := some (0, 0, 5), right_fit := some (0, 0, 7) }

/-- The state `staleS` after feature extraction on `zeros110`. -/
def staleS₂ : LaneLines :=
  { staleS with window_height := 2, width := 110, height := 2 }

/-- The state `freshS` after feature extraction on `zeros110`. -/
def freshS₂ : LaneLines :=
  { freshS with window_height := 2, width := 110, height := 2 }

/-- An all-zero image of 2 rows and 50 columns. -/
def zeros50 : Img := List.replicate 2 (List.replicate 50 0)

/-- An all-zero image of 2 rows and 99 columns. -/
def zeros99 : Img := List.replicate 2 (List.replicate 99 0)

/-- An all-zero image of 2 rows and 102 columns. -/
def zeros102 : Img := List.replicate 2 (List.replicate 102 0)

/-- Sum of the `k`-th powers of a list of sample positions, over `ℚ`
(the moments appearing in the normal equations of `polyfit`). -/
def momS (l : List Int) (k : Nat) : ℚ :=
  (l.map fun (y : Int) => ((y : ℚ)) ^ k).sum

/-- Determinant of the moment matrix of the quadratic normal equations for
the sample positions `l` (the `det` computed inside `polyfit`). -/
def momDet (l : List Int) : ℚ :=
  det3 (momS l 4) (momS l 3) (momS l 2)
       (momS l 3) (momS l 2) (momS l 1)
       (momS l 2) (momS l 1) (l.length : ℚ)

/-- Scenario B row: width 400 with foreground pixels at columns 100 and 300. -/
def stripeRow : List Nat := ((List.replicate 400 0).set 100 1).set 300 1

/-- Scenario B image: 600 identical rows of `stripeRow` — two vertical
foreground stripes of 600 pixels each at columns 100 and 300. -/
def stripeImg : Img := List.replicate 600 stripeRow

/-- The sample positions collected for either stripe: the y coordinates
0..599 in scan order. -/
def stripeYs : List Int := (List.range 600).map fun (y : Nat) => (y : Int)

/-- The state `freshS` after feature extraction on `stripeImg`. -/
def stripeS₁ : LaneLines :=
  { freshS with
    window_height := 600, width := 400, height := 600,
    nonzerox := (List.range 600).flatMap fun _ => [(100 : Int), 300],
    nonzeroy := (List.range 600).flatMap fun y => [(y : Int), y] }

/-- The state of the Scenario B call after mirroring and fitting: both curves
are the vertical lines `x = 100` and `x = 900`. -/
def stripeS₂ : LaneLines :=
  { stripeS₁ with
    left_fit := some (0, 0, 100), right_fit := some (0, 0, 900) }

/-! ### Helper lemmas -/

/-- The post-mirroring left x-list. -/
theorem mirrorStep_lt {lx ly rx ry : List Int} (h : ly.length < ry.length) :
    mirrorStep lx ly rx ry = (rx.map (fun x => x - 800), ry, rx, ry) := by
  simp [mirrorStep, h]

/-- The post-mirroring lists when the left side is not strictly smaller. -/
theorem mirrorStep_ge {lx ly rx ry : List Int} (h : ¬ ly.length < ry.length) :
    mirrorStep lx ly rx ry = (lx, ly, lx.map (fun x => x + 800), ly) := by
  simp [mirrorStep, h]

/-- `forward` is the prefix `prep` followed by the rendering tail. -/
theorem forward_eq_prep (c : Consts) (s : LaneLines) (img : Img) :
    forward c s img =
      match prep s img with
      | .error e => .error e
      | .ok (s₂, o) => .ok (renderStep c s₂ img o) := rfl

/-- The rendering tail never modifies the detector state. -/
theorem renderStep_fst (c : Consts) (s : LaneLines) (img out0 : Img) :
    (renderStep c s img out0).1 = s := by
  unfold renderStep
  cases hl : s.left_fit <;> cases hr : s.right_fit <;> simp

/-- The rendering tail with an undefined curve: the caught evaluation failure
returns the raw input image, `false` and offset `0`. -/
theorem renderStep_none (c : Consts) (s : LaneLines) (img out0 : Img)
    (h : s.left_fit = none ∨ s.right_fit = none) :
    renderStep c s img out0 = (s, .gray img, false, 0) := by
  rcases h with h | h
  · cases hr : s.right_fit <;> simp [renderStep, h, hr]
  · cases hl : s.left_fit <;> simp [renderStep, h, hl]

/-- The rendering tail with both curves defined: success, some annotated
image, and the `measure_center` offset. -/
theorem renderStep_some (c : Consts) (s : LaneLines) (img out0 : Img) (lf rf : Poly)
    (hl : s.left_fit = some lf) (hr : s.right_fit = some rf) :
    ∃ ri, renderStep c s img out0 = (s, .rgb ri, true, measure_center c lf rf) := by
  refine ⟨{ base := out0,
            lines := (pyLinspace 0 (s.height : ℚ) img.length).map fun t =>
              (pytrunc (evalPoly lf t), pytrunc (evalPoly rf t), pytrunc t),
            circle := if 0 ≤ measure_center c lf rf ∧ measure_center c lf rf ≤ (c.WIDTH : Int)
                      then some (measure_center c lf rf, c.HEIGHT) else none }, ?_⟩
  unfold renderStep
  rw [hl, hr]

/-- The fitting step only ever touches the two curve fields. -/
theorem fitStep_shape (s : LaneLines) (lx ly rx ry : List Int) :
    ∃ a b, fitStep s lx ly rx ry = { s with left_fit := a, right_fit := b } := by
  unfold fitStep
  split_ifs <;> exact ⟨_, _, rfl⟩

/-- Feature extraction overwrites every cached field, so two states agreeing
on the curve fields and the hyperparameters extract identically. -/
theorem extract_features_congr (s t : LaneLines) (img : Img)
    (h1 : t.left_fit = s.left_fit) (h2 : t.right_fit = s.right_fit)
    (h3 : t.nwindows = s.nwindows) (h4 : t.margin = s.margin) (h5 : t.minpix = s.minpix) :
    extract_features t img = extract_features s img := by
  cases s; cases t
  simp_all [extract_features]

/-- The columnwise sum of a nonempty stack of width-`w` rows has width `w`. -/
theorem colSum_length (rows : List (List Nat)) (w : Nat)
    (h : ∀ r ∈ rows, r.length = w) (hne : rows ≠ []) : (colSum rows).length = w := by
  induction rows with
  | nil => cases hne rfl
  | cons r rs ih =>
    cases rs with
    | nil => simpa using h r (by simp)
    | cons r2 rs2 =>
      rw [show colSum (r :: r2 :: rs2) = List.zipWith (· + ·) r (colSum (r2 :: rs2)) from rfl]
      rw [List.length_zipWith]
      have h1 := h r (by simp)
      have h2 := ih (fun x hx => h x (List.mem_cons_of_mem _ hx)) (by simp)
      omega

/-- The histogram of a nonempty rectangular image has one entry per column. -/
theorem histLength (img : Img) (w : Nat)
    (hr : ∀ r ∈ img, r.length = w) (hne : img ≠ []) : (hist img).length = w := by
  unfold hist
  apply colSum_length
  · intro r hrr
    exact hr r (List.mem_of_mem_drop hrr)
  · intro hd
    have hle := List.drop_eq_nil_iff.mp hd
    have : img.length ≠ 0 := fun h0 => hne (List.length_eq_zero.mp h0)
    omega

/-- The scan of `argmaxAux` keeps its current best when no later value is
strictly greater. -/
theorem argmaxAux_of_not_gt (t : List Nat) : ∀ (i bi bv : Nat),
    (∀ v ∈ t, ¬ bv < v) → argmaxAux t i bi bv = bi := by
  induction t with
  | nil => intro i bi bv _; rfl
  | cons v t ih =>
    intro i bi bv h
    rw [show argmaxAux (v :: t) i bi bv =
      if bv < v then argmaxAux t (i + 1) i v else argmaxAux t (i + 1) bi bv from rfl]
    rw [if_neg (h v (by simp))]
    exact ih _ _ _ (fun x hx => h x (by simp [hx]))

/-- `np.argmax` of an all-zero nonempty array is index 0. -/
theorem argmaxList_zero (l : List Nat) (hne : l ≠ []) (h : ∀ v ∈ l, v = 0) :
    argmaxList l = some 0 := by
  cases l with
  | nil => cases hne rfl
  | cons v t =>
    have hv : v = 0 := h v (by simp)
    rw [show argmaxList (v :: t) = some (argmaxAux t 1 0 v) from rfl, hv]
    rw [argmaxAux_of_not_gt t 1 0 0 (fun x hx => by rw [h x (by simp [hx])]; omega)]

/-- A failed base search (`none` from either `np.argmax`) aborts
`find_lane_pixels` with the `ValueError`. -/
theorem find_lane_pixels_err (s : LaneLines) (img : Img)
    (h : leftBase img = none ∨ rightBase img = none) :
    find_lane_pixels s img = Except.error Err.valueError := by
  unfold find_lane_pixels
  cases hl : leftBase img <;> cases hr : rightBase img <;>
    first
      | rfl
      | (rcases h with h | h <;> simp_all)

/-- An error in `find_lane_pixels` propagates to the result of `forward`. -/
theorem forward_err (c : Consts) (s : LaneLines) (img : Img) (e : Err)
    (h : find_lane_pixels (extract_features s img) img = Except.error e) :
    forward c s img = Except.error e := by
  show fit_poly c (extract_features s img) img = _
  unfold fit_poly fitPrep
  rw [h]

/-- Enumerating a replicated list pairs each index with the repeated value. -/
theorem enumFrom_replicate {α : Type} (a : α) :
    ∀ (n k : Nat), List.enumFrom k (List.replicate n a) =
      (List.range' k n).map fun i => (i, a) := by
  intro n
  induction n with
  | zero => intro k; rfl
  | succ m ih =>
    intro k
    rw [List.replicate_succ, List.range'_succ]
    simpa using ih (k + 1)

/-- `List.enum` of a replicated list. -/
theorem enum_replicate {α : Type} (a : α) (n : Nat) :
    List.enum (List.replicate n a) = (List.range n).map fun i => (i, a) := by
  rw [List.enum, enumFrom_replicate, List.range_eq_range']

/-- `flatMap` after `map` fuses. -/
theorem flatMap_after_map {α β γ : Type} (l : List α) (f : α → β) (g : β → List γ) :
    (l.map f).flatMap g = l.flatMap fun x => g (f x) := by
  induction l with
  | nil => rfl
  | cons a t ih => simp [ih]

/-- `flatMap` respects pointwise equality on the list's members. -/
theorem flatMap_congr_mem {α β : Type} {l : List α} {f g : α → List β}
    (h : ∀ x ∈ l, f x = g x) : l.flatMap f = l.flatMap g := by
  induction l with
  | nil => rfl
  | cons a t ih =>
    simp only [List.flatMap_cons]
    rw [h a (by simp), ih (fun x hx => h x (by simp [hx]))]

/-- `flatMap` with singleton results is a `map`. -/
theorem flatMap_singleton_fn {α β : Type} (l : List α) (f : α → β) :
    (l.flatMap fun x => [f x]) = l.map f := by
  induction l with
  | nil => rfl
  | cons a t ih => simp [ih]

/-- Zipping two `flatMap`s over the same list, with blocks of equal length,
zips blockwise. -/
theorem zip_flatMap {α β γ : Type} (l : List α) (f : α → List β) (g : α → List γ)
    (h : ∀ x, (f x).length = (g x).length) :
    (l.flatMap f).zip (l.flatMap g) = l.flatMap fun x => (f x).zip (g x) := by
  induction l with
  | nil => rfl
  | cons a t ih =>
    simp only [List.flatMap_cons]
    rw [List.zip_append (h a), ih]

set_option maxRecDepth 4000 in
/-- The nonzero pixels of the stripe image, in scan order. -/
theorem nonzeroPixels_stripe :
    nonzeroPixels stripeImg = (List.range 600).flatMap fun y => [(y, 100), (y, 300)] := by
  have hrow : rowNonzero stripeRow = [100, 300] := by decide
  unfold nonzeroPixels
  rw [show stripeImg = List.replicate 600 stripeRow from rfl, enum_replicate,
    flatMap_after_map]
  apply flatMap_congr_mem
  intro y _
  rw [hrow]
  rfl

set_option maxRecDepth 4000 in
/-- Feature extraction on the stripe image. -/
theorem extract_stripe : extract_features freshS stripeImg = stripeS₁ := by
  unfold extract_features stripeS₁
  rw [nonzeroPixels_stripe]
  have h1 : stripeImg.length = 600 := by
    rw [show stripeImg = List.replicate 600 stripeRow from rfl, List.length_replicate]
  have h2 : (stripeImg.head?.map List.length).getD 0 = 400 := by
    rw [show stripeImg = List.replicate 600 stripeRow from rfl]
    rfl
  rw [h1, h2]
  simp only [List.map_flatMap, List.map_cons, List.map_nil]
  norm_num [freshS, mkLaneLines]

/-- Pointwise: adding a row to `k` copies of itself columnwise. -/
theorem zipWith_add_map (row : List Nat) (k : Nat) :
    List.zipWith (· + ·) row (row.map fun v => k * v) = row.map fun v => (k + 1) * v := by
  induction row with
  | nil => rfl
  | cons a t ih =>
    simp only [List.map_cons, List.zipWith_cons_cons, ih]
    congr 1
    ring

/-- Columnwise sum of `n + 1` copies of a row. -/
theorem colSum_replicate (row : List Nat) :
    ∀ n, colSum (List.replicate (n + 1) row) = row.map fun v => (n + 1) * v := by
  intro n
  induction n with
  | zero => simp [colSum]
  | succ m ih =>
    rw [List.replicate_succ]
    rw [show colSum (row :: List.replicate (m + 1) row) =
      List.zipWith (· + ·) row (colSum (List.replicate (m + 1) row)) from ?_]
    · rw [ih, zipWith_add_map]
    · rw [List.replicate_succ]
      rfl

/-- The bottom-half column profile of the stripe image: 300 in the stripe
columns, 0 elsewhere. -/
theorem hist_stripe : hist stripeImg = stripeRow.map fun v => 300 * v := by
  unfold hist
  rw [show stripeImg = List.replicate 600 stripeRow from rfl, List.length_replicate]
  norm_num [List.drop_replicate]
  exact colSum_replicate stripeRow 299

/-- The histogram of the stripe image has 400 entries. -/
theorem hist_stripe_length : (hist stripeImg).length = 400 := by
  rw [hist_stripe, List.length_map,
    show stripeRow = ((List.replicate 400 0).set 100 1).set 300 1 from rfl,
    List.length_set, List.length_set, List.length_replicate]

set_option maxRecDepth 4000 in
/-- The left base seed of the stripe image is column 100. -/
theorem leftBase_stripe : leftBase stripeImg = some 100 := by
  unfold leftBase leftHalf pySliceTo
  rw [hist_stripe_length]
  rw [if_pos (by omega), show Int.toNat (((400 / 2 : Nat) : Int) - 50) = 150 by rfl]
  rw [hist_stripe, ← List.map_take]
  decide

set_option maxRecDepth 4000 in
/-- The right base seed of the stripe image is column 300. -/
theorem rightBase_stripe : rightBase stripeImg = some 300 := by
  unfold rightBase rightHalf
  rw [hist_stripe_length]
  rw [hist_stripe, ← List.map_drop]
  rw [show argmaxList ((stripeRow.drop 250).map fun v => 300 * v) = some 50 from by decide]
  rfl

/-- The left stripe's pixels lie in the left window of the single band. -/
theorem inWindow_left_keep (y : Nat) (hy : y < 600) :
    inWindow (100, 300) 50 600 ((100 : Int), (y : Int)) = true := by
  unfold inWindow
  simp only [Bool.and_eq_true, decide_eq_true_eq]
  refine ⟨⟨⟨by norm_num, by norm_num⟩, by push_cast; omega⟩, by push_cast; omega⟩

/-- The right stripe's pixels are outside the left window. -/
theorem inWindow_left_drop (y : Nat) :
    inWindow (100, 300) 50 600 ((300 : Int), (y : Int)) = false := by
  unfold inWindow
  rw [show decide ((300 : Int) ≤ 100 + ((50 : Nat) : Int)) = false from by
    rw [decide_eq_false_iff_not]
    norm_num]
  simp

/-- The right stripe's pixels lie in the right window of the single band. -/
theorem inWindow_right_keep (y : Nat) (hy : y < 600) :
    inWindow (300, 300) 50 600 ((300 : Int), (y : Int)) = true := by
  unfold inWindow
  simp only [Bool.and_eq_true, decide_eq_true_eq]
  refine ⟨⟨⟨by norm_num, by norm_num⟩, by push_cast; omega⟩, by push_cast; omega⟩

/-- The left stripe's pixels are outside the right window. -/
theorem inWindow_right_drop (y : Nat) :
    inWindow (300, 300) 50 600 ((100 : Int), (y : Int)) = false := by
  unfold inWindow
  rw [show decide ((300 : Int) - ((50 : Nat) : Int) ≤ 100) = false from by
    rw [decide_eq_false_iff_not]
    norm_num]
  simp

set_option maxRecDepth 4000 in
/-- The left window of the stripe scenario's single band collects exactly the
left stripe: x constantly 100, y running over 0..599. -/
theorem pixels_stripe_left :
    pixels_in_window stripeS₁ (100, 300) 50 600 =
      ((List.range 600).map fun _ => (100 : Int),
       (List.range 600).map fun (y : Nat) => (y : Int)) := by
  unfold pixels_in_window
  rw [show stripeS₁.nonzerox = (List.range 600).flatMap fun _ => [(100 : Int), 300] from rfl,
    show stripeS₁.nonzeroy = (List.range 600).flatMap fun y => [(y : Int), y] from rfl,
    zip_flatMap (List.range 600) (fun _ => [(100 : Int), 300]) (fun y => [(y : Int), y])
      (fun _ => rfl),
    List.filter_flatMap]
  have hfil : ∀ y ∈ List.range 600,
      List.filter (inWindow (100, 300) 50 600)
          (([(100 : Int), 300]).zip [((y : Nat) : Int), ((y : Nat) : Int)]) =
        [((100 : Int), ((y : Nat) : Int))] := by
    intro y hyr
    have hy := List.mem_range.mp hyr
    rw [show ([(100 : Int), 300]).zip [((y : Nat) : Int), ((y : Nat) : Int)] =
      [((100 : Int), ((y : Nat) : Int)), ((300 : Int), ((y : Nat) : Int))] from rfl]
    rw [List.filter_cons_of_pos (inWindow_left_keep y hy),
      List.filter_cons_of_neg (by rw [inWindow_left_drop y]; simp), List.filter_nil]
  rw [flatMap_congr_mem hfil, flatMap_singleton_fn]
  dsimp only
  rw [List.map_map, List.map_map]
  refine congrArg₂ Prod.mk ?_ ?_ <;> exact List.map_congr_left fun a _ => rfl

set_option maxRecDepth 4000 in
/-- The right window of the stripe scenario's single band collects exactly
the right stripe: x constantly 300, y running over 0..599. -/
theorem pixels_stripe_right :
    pixels_in_window stripeS₁ (300, 300) 50 600 =
      ((List.range 600).map fun _ => (300 : Int),
       (List.range 600).map fun (y : Nat) => (y : Int)) := by
  unfold pixels_in_window
  rw [show stripeS₁.nonzerox = (List.range 600).flatMap fun _ => [(100 : Int), 300] from rfl,
    show stripeS₁.nonzeroy = (List.range 600).flatMap fun y => [(y : Int), y] from rfl,
    zip_flatMap (List.range 600) (fun _ => [(100 : Int), 300]) (fun y => [(y : Int), y])
      (fun _ => rfl),
    List.filter_flatMap]
  have hfil : ∀ y ∈ List.range 600,
      List.filter (inWindow (300, 300) 50 600)
          (([(100 : Int), 300]).zip [((y : Nat) : Int), ((y : Nat) : Int)]) =
        [((300 : Int), ((y : Nat) : Int))] := by
    intro y hyr
    have hy := List.mem_range.mp hyr
    rw [show ([(100 : Int), 300]).zip [((y : Nat) : Int), ((y : Nat) : Int)] =
      [((100 : Int), ((y : Nat) : Int)), ((300 : Int), ((y : Nat) : Int))] from rfl]
    rw [List.filter_cons_of_neg (by rw [inWindow_right_drop y]; simp),
      List.filter_cons_of_pos (inWindow_right_keep y hy), List.filter_nil]
  rw [flatMap_congr_mem hfil, flatMap_singleton_fn]
  dsimp only
  rw [List.map_map, List.map_map]
  refine congrArg₂ Prod.mk ?_ ?_ <;> exact List.map_congr_left fun a _ => rfl

set_option maxRecDepth 4000 in
/-- The sliding-window search on the stripe image: each side collects exactly
its stripe's 600 pixels. -/
theorem find_stripe :
    find_lane_pixels stripeS₁ stripeImg =
      Except.ok ((List.range 600).map fun _ => (100 : Int),
        (List.range 600).map fun (y : Nat) => (y : Int),
        (List.range 600).map fun _ => (300 : Int),
        (List.range 600).map fun (y : Nat) => (y : Int), stripeImg) := by
  unfold find_lane_pixels
  rw [leftBase_stripe, rightBase_stripe]
  dsimp only
  rw [show stripeS₁.nwindows = 1 from rfl, show List.range 1 = [0] from rfl]
  simp only [List.foldl_cons, List.foldl_nil]
  unfold bandStep
  dsimp only
  rw [show stripeS₁.window_height = 600 from rfl,
    show stripeS₁.margin = 50 from rfl,
    show stripeImg.length = 600 from by
      rw [show stripeImg = List.replicate 600 stripeRow from rfl, List.length_replicate]]
  simp only [Nat.cast_ofNat, Nat.reduceDiv]
  rw [show (600 : Int) + 300 - 600 = 300 by norm_num]
  rw [pixels_stripe_left, pixels_stripe_right]
  dsimp only
  simp only [List.nil_append]

/-- Gauss sum over `range n`, in `ℚ`. -/
theorem sum_range_cast_pow1 (n : Nat) :
    ((List.range n).map fun (y : Nat) => ((y : ℚ)) ^ 1).sum = ((n : ℚ) ^ 2 - n) / 2 := by
  induction n with
  | zero => simp
  | succ m ih =>
    rw [List.range_succ, List.map_append, List.sum_append, ih]
    simp only [List.map_cons, List.map_nil, List.sum_cons, List.sum_nil, add_zero]
    push_cast
    ring

/-- Sum of squares over `range n`, in `ℚ`. -/
theorem sum_range_cast_pow2 (n : Nat) :
    ((List.range n).map fun (y : Nat) => ((y : ℚ)) ^ 2).sum =
      (2 * (n : ℚ) ^ 3 - 3 * (n : ℚ) ^ 2 + n) / 6 := by
  induction n with
  | zero => simp
  | succ m ih =>
    rw [List.range_succ, List.map_append, List.sum_append, ih]
    simp only [List.map_cons, List.map_nil, List.sum_cons, List.sum_nil, add_zero]
    push_cast
    ring

/-- Sum of cubes over `range n`, in `ℚ`. -/
theorem sum_range_cast_pow3 (n : Nat) :
    ((List.range n).map fun (y : Nat) => ((y : ℚ)) ^ 3).sum =
      ((n : ℚ) ^ 4 - 2 * (n : ℚ) ^ 3 + (n : ℚ) ^ 2) / 4 := by
  induction n with
  | zero => simp
  | succ m ih =>
    rw [List.range_succ, List.map_append, List.sum_append, ih]
    simp only [List.map_cons, List.map_nil, List.sum_cons, List.sum_nil, add_zero]
    push_cast
    ring

/-- Sum of fourth powers over `range n`, in `ℚ`. -/
theorem sum_range_cast_pow4 (n : Nat) :
    ((List.range n).map fun (y : Nat) => ((y : ℚ)) ^ 4).sum =
      (6 * (n : ℚ) ^ 5 - 15 * (n : ℚ) ^ 4 + 10 * (n : ℚ) ^ 3 - n) / 30 := by
  induction n with
  | zero => simp
  | succ m ih =>
    rw [List.range_succ, List.map_append, List.sum_append, ih]
    simp only [List.map_cons, List.map_nil, List.sum_cons, List.sum_nil, add_zero]
    push_cast
    ring

/-- Zipping a list with a constant right column. -/
theorem zip_map_const {c : Int} (l : List Int) :
    l.zip (l.map fun _ => c) = l.map fun y => (y, c) := by
  induction l with
  | nil => rfl
  | cons a t ih => simp only [List.map_cons, List.zip_cons_cons, ih]

/-- `S_k` moment of a constant-column sample. -/
theorem momZS_map_const (l : List Int) (c : Int) (k : Nat) :
    momZS (l.map fun y => (y, c)) k = momS l k := by
  unfold momZS momS
  rw [List.map_map]
  exact congrArg List.sum (List.map_congr_left fun a _ => rfl)

/-- `T_k` moment of a constant-column sample. -/
theorem momZT_map_const (l : List Int) (c : Int) (k : Nat) :
    momZT (l.map fun y => (y, c)) k = (c : ℚ) * momS l k := by
  unfold momZT momS
  rw [List.map_map, ← List.sum_map_mul_left]
  exact congrArg List.sum (List.map_congr_left fun a _ => rfl)

/-- The zeroth moment counts the samples. -/
theorem momS_zero (l : List Int) : momS l 0 = (l.length : ℚ) := by
  unfold momS
  simp [pow_zero]

/-- Fitting a constant sample `x = c` with a full-rank moment matrix yields
exactly the constant polynomial `(0, 0, c)`: the first two Cramer numerators
have a repeated column and vanish identically, the third is `c` times the
moment determinant. -/
theorem polyfit_const (l : List Int) (c : Int) (hdet : momDet l ≠ 0) :
    polyfit l (l.map fun _ => c) = (0, 0, (c : ℚ)) := by
  unfold polyfit
  rw [zip_map_const]
  simp only [momZS_map_const, momZT_map_const, momS_zero, List.length_map]
  have hd : det3 (momS l 4) (momS l 3) (momS l 2) (momS l 3) (momS l 2) (momS l 1)
      (momS l 2) (momS l 1) ((l.length : ℚ)) = momDet l := rfl
  rw [hd, if_neg hdet]
  refine congrArg₂ Prod.mk ?_ (congrArg₂ Prod.mk ?_ ?_)
  · rw [show det3 ((c : ℚ) * momS l 2) (momS l 3) (momS l 2) ((c : ℚ) * momS l 1)
        (momS l 2) (momS l 1) ((c : ℚ) * (l.length : ℚ)) (momS l 1) ((l.length : ℚ)) = 0 from by
      unfold det3
      ring]
    exact zero_div _
  · rw [show det3 (momS l 4) ((c : ℚ) * momS l 2) (momS l 2) (momS l 3)
        ((c : ℚ) * momS l 1) (momS l 1) (momS l 2) ((c : ℚ) * (l.length : ℚ)) ((l.length : ℚ)) = 0 from by
      unfold det3
      ring]
    exact zero_div _
  · rw [show det3 (momS l 4) (momS l 3) ((c : ℚ) * momS l 2) (momS l 3) (momS l 2)
        ((c : ℚ) * momS l 1) (momS l 2) (momS l 1) ((c : ℚ) * (l.length : ℚ)) =
        (c : ℚ) * momDet l from by
      unfold momDet det3
      ring]
    rw [mul_div_assoc, div_self hdet, mul_one]

/-- The stripe sample positions are the casts of `range 600`. -/
theorem momS_stripeYs (k : Nat) :
    momS stripeYs k = ((List.range 600).map fun (y : Nat) => ((y : ℚ)) ^ k).sum := by
  unfold momS stripeYs
  rw [List.map_map]
  exact congrArg List.sum (List.map_congr_left fun a _ => by simp)

/-- The moment matrix of the 600 distinct stripe sample positions is
nonsingular. -/
theorem momDet_stripe : momDet stripeYs ≠ 0 := by
  unfold momDet
  simp only [momS_stripeYs]
  rw [sum_range_cast_pow4, sum_range_cast_pow3, sum_range_cast_pow2, sum_range_cast_pow1]
  rw [show (stripeYs.length : ℚ) = 600 from by
    unfold stripeYs
    rw [List.length_map, List.length_range]
    norm_num]
  unfold det3
  norm_num

/-- Fitting either stripe's constant x column over the 600 sample rows gives
exactly the vertical line `x = c`. -/
theorem polyfit_stripe (c : Int) :
    polyfit stripeYs (stripeYs.map fun _ => c) = (0, 0, (c : ℚ)) :=
  polyfit_const stripeYs c momDet_stripe

/-- Constant maps over `range 600` factor through `stripeYs`. -/
theorem map_const_range (c : Int) :
    (List.range 600).map (fun _ => c) = stripeYs.map fun _ => c := by
  unfold stripeYs
  rw [List.map_map]
  exact List.map_congr_left fun a _ => rfl

/-- The state produced by the whole Scenario B prefix: both curves fitted, to
`x = 100` and `x = 900`. -/
theorem prep_stripe : prep freshS stripeImg = Except.ok (stripeS₂, stripeImg) := by
  unfold prep fitPrep
  rw [extract_stripe, find_stripe]
  dsimp only
  rw [mirrorStep_ge (by simp)]
  dsimp only
  unfold fitStep
  rw [if_pos (by simp), if_pos (by simp)]
  rw [show (List.range 600).map (fun (y : Nat) => (y : Int)) = stripeYs from rfl]
  rw [map_const_range 100]
  rw [show (stripeYs.map fun _ => (100 : Int)).map (fun x => x + 800) =
        stripeYs.map fun _ => (900 : Int) from by
    rw [List.map_map]
    exact List.map_congr_left fun a _ => by norm_num]
  rw [polyfit_stripe 100, polyfit_stripe 900]
  unfold stripeS₂ stripeS₁
  norm_num

/-- The full Scenario B call, for any module constants: both curves defined
(`x = 100` and `x = 900`), success reported, offset 500 at every reference
row. -/
theorem stripe_forward (c : Consts) :
    Except.map (fun r => (r.1.left_fit, r.1.right_fit, r.2.2.1, r.2.2.2))
        (forward c freshS stripeImg) =
      Except.ok (some ((0 : ℚ), (0 : ℚ), (100 : ℚ)), some ((0 : ℚ), (0 : ℚ), (900 : ℚ)),
        true, 500) := by
  rw [forward_eq_prep, prep_stripe]
  obtain ⟨ri, hri⟩ := renderStep_some c stripeS₂ stripeImg stripeImg (0, 0, 100) (0, 0, 900)
    rfl rfl
  show Except.map (fun r => (r.1.left_fit, r.1.right_fit, r.2.2.1, r.2.2.2))
    (Except.ok (renderStep c stripeS₂ stripeImg stripeImg)) = _
  rw [hri]
  show Except.ok (stripeS₂.left_fit, stripeS₂.right_fit, true,
    measure_center c (0, 0, 100) (0, 0, 900)) = _
  rw [show measure_center c (0, 0, 100) (0, 0, 900) = 500 from by
    unfold measure_center dot3
    dsimp only
    rw [show ((0 : ℚ) * ((c.HEIGHT : ℚ)) ^ 2 + 0 * ((c.HEIGHT : ℚ)) + 100 * 1 +
        ((0 : ℚ) * ((c.HEIGHT : ℚ)) ^ 2 + 0 * ((c.HEIGHT : ℚ)) + 900 * 1)) / 2 =
        (((500 : Int) : ℚ)) from by push_cast; ring]
    exact Int.floor_intCast 500]
  rfl

/-! ### Claims -/

/-- C1, counterexample.  With equal point counts on both sides (left not
strictly fewer, right not strictly fewer), the mirroring step still discards
the right list and synthesizes it from the left: on `lx = [100]`, `ly = [0]`,
`rx = [300]`, `ry = [0]` the result replaces the right x-list `[300]` by
`[900]`, so the right side is rebuilt even though it does not have strictly
fewer points than the left. -/
theorem c1_equal_counts_cex :
    mirrorStep [100] [0] [300] [0] = ([100], [0], [900], [0]) ∧
      ([(900 : Int)] ≠ [300]) ∧ ¬ ([(0:Int)].length < [(0:Int)].length) := by
  refine ⟨?_, by decide, by decide⟩
  simp [mirrorStep]

/-- C1, amended.  In the mirroring step, if the left list has strictly fewer
points than the right, the left is discarded and synthesized pointwise as
`leftX = rightX - 800` with the right y-list copied; otherwise — that is,
whenever the right list does not have strictly more points than the left,
including equal counts — the right is discarded and synthesized as
`rightX = leftX + 800` with the left y-list copied.  In both cases the two
sides end with equal x-counts and identical y-lists (assuming the usual
x/y length invariant of the incoming lists). -/
theorem c1_mirror_rule (lx ly rx ry : List Int)
    (hl : lx.length = ly.length) (hr : rx.length = ry.length) :
    (ly.length < ry.length →
      mirrorStep lx ly rx ry = (rx.map (fun x => x - 800), ry, rx, ry)) ∧
    (¬ ly.length < ry.length →
      mirrorStep lx ly rx ry = (lx, ly, lx.map (fun x => x + 800), ly)) ∧
    (mirrorStep lx ly rx ry).1.length = (mirrorStep lx ly rx ry).2.2.1.length ∧
    (mirrorStep lx ly rx ry).2.1 = (mirrorStep lx ly rx ry).2.2.2 := by
  refine ⟨fun h => mirrorStep_lt h, fun h => mirrorStep_ge h, ?_, ?_⟩ <;>
    rcases Nat.lt_or_ge ly.length ry.length with h | h
  · simp [mirrorStep_lt h, hl, hr]
  · simp [mirrorStep_ge (Nat.not_lt.mpr h), hl, hr]
  · simp [mirrorStep_lt h, hl, hr]
  · simp [mirrorStep_ge (Nat.not_lt.mpr h), hl, hr]

/-- C1, witness for the amended rule at concrete lists. -/
theorem c1_mirror_rule_wit :
    ([(7:Int)].length = [(1:Int)].length ∧ [(2:Int), 3].length = [(4:Int), 5].length) ∧
    mirrorStep [7] [1] [2, 3] [4, 5] = ([(-798 : Int), -797], [4, 5], [2, 3], [4, 5]) := by
  refine ⟨⟨rfl, rfl⟩, ?_⟩
  have h := (c1_mirror_rule [7] [1] [2, 3] [4, 5] rfl rfl).1 (by decide)
  rw [h]
  decide

/-- C3, counterexample.  A detector carrying fits from an earlier call, run on
an all-zero 110×2 image (no side reaches the 500-point threshold): after the
call the left curve field still holds the stale fit `x = 5` — it is not
undefined for this call — and the call even returns `success = true` and the
offset computed from the stale curves. -/
theorem c3_stale_fit_cex :
    (Except.map (fun r => (r.1.left_fit, r.1.right_fit, r.2.2.1, r.2.2.2))
        (forward { WIDTH := 110, HEIGHT := 2 } staleS zeros110)) =
      Except.ok (some (0, 0, 5), some (0, 0, 7), true, 6) := by
  with_unfolding_all rfl

/-- C3, amended.  A side's curve field is reassigned (to the least-squares
quadratic of the possibly-mirrored points) exactly when that side's point
count strictly exceeds 500; when the threshold is not reached the field is
left untouched, so it retains whatever value it had before the call — the
previous call's fit if one ever succeeded (which is then used by the rest of
this call), or `none` on a fresh detector. -/
theorem c3_fit_threshold (s : LaneLines) (lx ly rx ry : List Int) :
    (500 < ly.length → (fitStep s lx ly rx ry).left_fit = some (polyfit ly lx)) ∧
    (ly.length ≤ 500 → (fitStep s lx ly rx ry).left_fit = s.left_fit) ∧
    (500 < ry.length → (fitStep s lx ly rx ry).right_fit = some (polyfit ry rx)) ∧
    (ry.length ≤ 500 → (fitStep s lx ly rx ry).right_fit = s.right_fit) := by
  unfold fitStep
  by_cases h1 : 500 < ly.length <;> by_cases h2 : 500 < ry.length <;>
    simp [h1, h2, Nat.not_lt.mpr]

/-- C3, witness: on a 501-point left list the left curve is reassigned, and on
a 1-point right list the right curve field keeps its previous value. -/
theorem c3_fit_threshold_wit :
    (500 < (List.replicate 501 (0 : Int)).length ∧ ([(3:Int)].length ≤ 500)) ∧
    (fitStep (mkLaneLines 1 50 50) (List.replicate 501 2) (List.replicate 501 0)
        [3] [4]).left_fit =
      some (polyfit (List.replicate 501 (0 : Int)) (List.replicate 501 2)) ∧
    (fitStep (mkLaneLines 1 50 50) (List.replicate 501 2) (List.replicate 501 0)
        [3] [4]).right_fit = none := by
  refine ⟨⟨by rw [List.length_replicate]; omega, by rw [List.length_singleton]; omega⟩, ?_, ?_⟩
  · exact (c3_fit_threshold (mkLaneLines 1 50 50) (List.replicate 501 2)
      (List.replicate 501 0) [3] [4]).1 (by rw [List.length_replicate]; omega)
  · exact (c3_fit_threshold (mkLaneLines 1 50 50) (List.replicate 501 2)
      (List.replicate 501 0) [3] [4]).2.2.2 (by rw [List.length_singleton]; omega)

/-- C6.  In each band of the sliding-window loop, a side's current center is
set to the integer-truncated mean (`Int.tdiv` of sum by count) of the x
coordinates of the pixels found in that band's window exactly when the found
count strictly exceeds `minpix`; otherwise the center carried into the next
band is unchanged. -/
theorem c6_recenter_rule (s : LaneLines) (w : WinAcc) :
    (s.minpix <
        (pixels_in_window s (w.lc, w.yc - (s.window_height : Int)) s.margin s.window_height).1.length →
      (bandStep s w).lc =
        Int.tdiv
          (pixels_in_window s (w.lc, w.yc - (s.window_height : Int)) s.margin s.window_height).1.sum
          ((pixels_in_window s (w.lc, w.yc - (s.window_height : Int)) s.margin s.window_height).1.length : Int)) ∧
    (¬ s.minpix <
        (pixels_in_window s (w.lc, w.yc - (s.window_height : Int)) s.margin s.window_height).1.length →
      (bandStep s w).lc = w.lc) ∧
    (s.minpix <
        (pixels_in_window s (w.rc, w.yc - (s.window_height : Int)) s.margin s.window_height).1.length →
      (bandStep s w).rc =
        Int.tdiv
          (pixels_in_window s (w.rc, w.yc - (s.window_height : Int)) s.margin s.window_height).1.sum
          ((pixels_in_window s (w.rc, w.yc - (s.window_height : Int)) s.margin s.window_height).1.length : Int)) ∧
    (¬ s.minpix <
        (pixels_in_window s (w.rc, w.yc - (s.window_height : Int)) s.margin s.window_height).1.length →
      (bandStep s w).rc = w.rc) := by
  refine ⟨fun h => ?_, fun h => ?_, fun h => ?_, fun h => ?_⟩ <;> simp [bandStep, h]

/-- C6, witness: a band with two found pixels and threshold 1 recenters to
their truncated mean; with threshold 5 the center is unchanged. -/
theorem c6_recenter_rule_wit :
    ((mkLaneLines 1 50 1 : LaneLines).minpix <
      (pixels_in_window { mkLaneLines 1 50 1 with nonzerox := [3, 6], nonzeroy := [0, 0], window_height := 2 }
        ((0:Int), (3:Int) - (2:Int)) 50 2).1.length) ∧
    (bandStep { mkLaneLines 1 50 1 with nonzerox := [3, 6], nonzeroy := [0, 0], window_height := 2 }
        { lc := 0, rc := 0, yc := 3, lx := [], ly := [], rx := [], ry := [] }).lc = 4 := by
  refine ⟨by decide, ?_⟩
  have h := (c6_recenter_rule
    { mkLaneLines 1 50 1 with nonzerox := [3, 6], nonzeroy := [0, 0], window_height := 2 }
    { lc := 0, rc := 0, yc := 3, lx := [], ly := [], rx := [], ry := [] }).1 (by decide)
  rw [h]
  decide

/-- C10, counterexample.  A one-dimensional input fails in `extract_features`
with an `IndexError` (from the out-of-range `img.shape[1]` access), not with
the `AssertionError` of `find_lane_pixels`; so it is not true that every
non-2-D input fails with an assertion error. -/
theorem c10_rank1_cex :
    forwardNd { WIDTH := 1, HEIGHT := 1 } (mkLaneLines 1 50 50) (Nd.dim [Nd.cell 0]) =
      Except.error Err.indexError ∧ Err.indexError ≠ Err.assertionError := by
  exact ⟨rfl, by decide⟩

/-- C10, amended.  An input with three or more axes passes feature extraction
and then fails the `assert len(img.shape) == 2` with an `AssertionError`; an
input with fewer than two axes fails earlier, in `extract_features`, with an
`IndexError` from the `shape` tuple access; only rank-2 inputs run the 2-D
pipeline. -/
theorem c10_rank_dispatch (c : Consts) (s : LaneLines) (a : Nd) :
    (3 ≤ ndim a → forwardNd c s a = Except.error Err.assertionError) ∧
    (ndim a ≤ 1 → forwardNd c s a = Except.error Err.indexError) ∧
    (ndim a = 2 → forwardNd c s a = forward c s (toImg a)) := by
  unfold forwardNd
  refine ⟨fun h => ?_, fun h => ?_, fun h => ?_⟩
  · rw [if_neg (by omega), if_neg (by omega), if_neg (by omega)]
  · rcases Nat.le_one_iff_eq_zero_or_eq_one.mp h with h0 | h1
    · rw [if_pos h0]
    · rw [if_neg (by omega), if_pos h1]
  · rw [if_neg (by omega), if_neg (by omega), if_pos h]

/-- C10, witness: a rank-3 input produces the assertion error, a rank-0 input
the index error, and a rank-2 input runs the pipeline. -/
theorem c10_rank_dispatch_wit :
    (3 ≤ ndim (Nd.dim [Nd.dim [Nd.dim [Nd.cell 1]]]) ∧ ndim (Nd.cell 5) ≤ 1) ∧
    forwardNd { WIDTH := 1, HEIGHT := 1 } (mkLaneLines 1 50 50)
        (Nd.dim [Nd.dim [Nd.dim [Nd.cell 1]]]) = Except.error Err.assertionError ∧
    forwardNd { WIDTH := 1, HEIGHT := 1 } (mkLaneLines 1 50 50) (Nd.cell 5) =
      Except.error Err.indexError := by
  refine ⟨⟨by decide, by decide⟩, ?_, ?_⟩
  · exact (c10_rank_dispatch { WIDTH := 1, HEIGHT := 1 } (mkLaneLines 1 50 50)
      (Nd.dim [Nd.dim [Nd.dim [Nd.cell 1]]])).1 (by decide)
  · exact (c10_rank_dispatch { WIDTH := 1, HEIGHT := 1 } (mkLaneLines 1 50 50)
      (Nd.cell 5)).2.1 (by decide)

/-- C4, amended.  Whenever either curve is still undefined after the fitting
step of a call, `forward` returns `success = false`, offset `0`, and the
original single-channel input image itself (`return img, False, 0`) — not the
three-channel replication used as the drawing base — without recording any
drawing operation. -/
theorem c4_undefined_curve (c : Consts) (s : LaneLines) (img : Img)
    (s₂ : LaneLines) (out0 : Img) (hp : prep s img = Except.ok (s₂, out0))
    (h : s₂.left_fit = none ∨ s₂.right_fit = none) :
    forward c s img = Except.ok (s₂, .gray img, false, 0) := by
  rw [forward_eq_prep, hp]
  exact congrArg Except.ok (renderStep_none c s₂ img out0 h)

/-- C4, counterexample.  On an all-zero 110×2 image and a fresh detector the
call fails as claimed (`success = false`, offset `0`) but the returned image
is the raw single-channel input, which is not the input replicated into three
channels. -/
theorem c4_gray_not_rgb_cex :
    forward { WIDTH := 110, HEIGHT := 2 } freshS zeros110 =
      Except.ok (freshS₂, .gray zeros110, false, 0) ∧
    OutImage.gray zeros110 ≠
      OutImage.rgb { base := zeros110, lines := [], circle := none } := by
  constructor
  · with_unfolding_all rfl
  · intro h
    cases h

/-- C4, witness for the amended theorem at the all-zero 110×2 image. -/
theorem c4_undefined_curve_wit :
    prep freshS zeros110 = Except.ok (freshS₂, zeros110) ∧
    forward { WIDTH := 110, HEIGHT := 2 } freshS zeros110 =
      Except.ok (freshS₂, .gray zeros110, false, 0) := by
  have hp : prep freshS zeros110 = Except.ok (freshS₂, zeros110) := by
    with_unfolding_all rfl
  exact ⟨hp, c4_undefined_curve _ _ _ _ _ hp (Or.inl rfl)⟩

/-- C5.  First conjunct: the output of a call depends only on the input image
together with the carried-over curve fields (and the construction-time
hyperparameters) — overwriting the cached per-call fields with arbitrary
values does not change the call.  Second conjunct: repeating a successful
call on the same image from the returned state with the curve fields reset to
their pre-call values reproduces the identical result (image, flag, offset
and state). -/
theorem c5_deterministic :
    (∀ (c : Consts) (img : Img) (s t : LaneLines),
      forward c
          { s with nonzerox := t.nonzerox, nonzeroy := t.nonzeroy, width := t.width,
                   height := t.height, window_height := t.window_height } img =
        forward c s img) ∧
    (∀ (c : Consts) (img : Img) (s : LaneLines) (r : LaneLines × OutImage × Bool × Int),
      forward c s img = Except.ok r →
      forward c { r.1 with left_fit := s.left_fit, right_fit := s.right_fit } img =
        Except.ok r) := by
  have hcache : ∀ (c : Consts) (img : Img) (s t : LaneLines),
      t.left_fit = s.left_fit → t.right_fit = s.right_fit → t.nwindows = s.nwindows →
      t.margin = s.margin → t.minpix = s.minpix → forward c t img = forward c s img := by
    intro c img s t h1 h2 h3 h4 h5
    show fit_poly c (extract_features t img) img = fit_poly c (extract_features s img) img
    rw [extract_features_congr s t img h1 h2 h3 h4 h5]
  constructor
  · intro c img s t
    exact hcache c img s _ rfl rfl rfl rfl rfl
  · intro c img s r h
    rcases hs₂ : prep s img with e | p
    · rw [forward_eq_prep, hs₂] at h
      exact absurd h (by simp)
    · obtain ⟨s₂, o⟩ := p
      rw [forward_eq_prep, hs₂] at h
      have hr1 : r.1 = s₂ := by
        have := congrArg (fun x => match x with | Except.ok v => v.1 | Except.error _ => s₂) h
        simpa [renderStep_fst] using this.symm
      obtain ⟨a, b, hfit⟩ : ∃ a b,
          s₂ = { extract_features s img with left_fit := a, right_fit := b } := by
        unfold prep fitPrep at hs₂
        rcases hf : find_lane_pixels (extract_features s img) img with e | q
        · rw [hf] at hs₂; exact absurd hs₂ (by simp)
        · obtain ⟨lx, ly, rx, ry, o0⟩ := q
          rw [hf] at hs₂
          obtain ⟨a, b, hab⟩ := fitStep_shape (extract_features s img)
            (mirrorStep lx ly rx ry).1 (mirrorStep lx ly rx ry).2.1
            (mirrorStep lx ly rx ry).2.2.1 (mirrorStep lx ly rx ry).2.2.2
          refine ⟨a, b, ?_⟩
          have : s₂ = fitStep (extract_features s img) (mirrorStep lx ly rx ry).1
              (mirrorStep lx ly rx ry).2.1 (mirrorStep lx ly rx ry).2.2.1
              (mirrorStep lx ly rx ry).2.2.2 := by
            have := congrArg (fun x => match x with | Except.ok v => v.1 | Except.error _ => s₂) hs₂
            simpa using this.symm
          rw [this, hab]
      have heq : forward c { r.1 with left_fit := s.left_fit, right_fit := s.right_fit } img =
          forward c s img := by
        apply hcache
        · rfl
        · rfl
        · rw [hr1, hfit]; rfl
        · rw [hr1, hfit]; rfl
        · rw [hr1, hfit]; rfl
      rw [heq, forward_eq_prep, hs₂, h]

/-- C5, witness: the second conjunct applied to a concrete successful call on
an all-zero 110×2 image with a fresh detector. -/
theorem c5_deterministic_wit :
    forward { WIDTH := 110, HEIGHT := 2 } freshS zeros110 =
      Except.ok (freshS₂, .gray zeros110, false, 0) ∧
    forward { WIDTH := 110, HEIGHT := 2 }
        { freshS₂ with left_fit := freshS.left_fit, right_fit := freshS.right_fit }
        zeros110 =
      Except.ok (freshS₂, .gray zeros110, false, 0) := by
  have h : forward { WIDTH := 110, HEIGHT := 2 } freshS zeros110 =
      Except.ok (freshS₂, .gray zeros110, false, 0) := by
    with_unfolding_all rfl
  exact ⟨h, c5_deterministic.2 _ _ _ _ h⟩

/-- C7.  Whenever both curves are defined after the fitting step, the offset
returned by `forward` is `⌊(leftCurve(H) + rightCurve(H)) / 2⌋` where each
curve is evaluated as `x = a*H^2 + b*H + c` at the fixed reference row
`H = HEIGHT`, and the call reports success. -/
theorem c7_center_offset (c : Consts) (s : LaneLines) (img : Img)
    (s₂ : LaneLines) (out0 : Img) (lf rf : Poly)
    (hp : prep s img = Except.ok (s₂, out0))
    (hl : s₂.left_fit = some lf) (hr : s₂.right_fit = some rf) :
    Except.map (fun r => (r.2.2.1, r.2.2.2)) (forward c s img) =
      Except.ok
        (true,
          Int.floor ((evalPoly lf (c.HEIGHT : ℚ) + evalPoly rf (c.HEIGHT : ℚ)) / 2)) := by
  rw [forward_eq_prep, hp]
  have hmc : measure_center c lf rf =
      Int.floor ((evalPoly lf (c.HEIGHT : ℚ) + evalPoly rf (c.HEIGHT : ℚ)) / 2) := by
    unfold measure_center dot3
    unfold evalPoly
    ring_nf
  obtain ⟨ri, hri⟩ := renderStep_some c s₂ img out0 lf rf hl hr
  show Except.map (fun r => (r.2.2.1, r.2.2.2)) (Except.ok (renderStep c s₂ img out0)) = _
  rw [hri]
  show Except.ok (true, measure_center c lf rf) = _
  rw [hmc]

/-- C7, witness: a detector whose carried-over curves are `x = 5` and `x = 7`,
run on an all-zero 110×2 image, returns success and the floor of the midpoint
of the two curve values at the reference row. -/
theorem c7_center_offset_wit :
    prep staleS zeros110 = Except.ok (staleS₂, zeros110) ∧
    Except.map (fun r => (r.2.2.1, r.2.2.2))
        (forward { WIDTH := 110, HEIGHT := 2 } staleS zeros110) =
      Except.ok
        (true,
          Int.floor ((evalPoly (0, 0, 5) ((2 : Nat) : ℚ) + evalPoly (0, 0, 7) ((2 : Nat) : ℚ)) / 2)) := by
  have hp : prep staleS zeros110 = Except.ok (staleS₂, zeros110) := by
    with_unfolding_all rfl
  exact ⟨hp, c7_center_offset _ _ _ _ _ _ _ hp rfl rfl⟩

/-- C8.  The base estimator computes the bottom-half column profile
(`hist`), whose length is the image width `w`; for `w ≥ 102` the left seed is
the argmax of the profile over columns `[0, w/2 - 50)` and the right seed the
argmax over `[w/2 + 50, w)` shifted by `w/2 + 50`; and when the profile is
entirely zero it returns the degenerate seeds `leftBase = 0` and
`rightBase = w/2 + 50` instead of failing. -/
theorem c8_base_estimator (img : Img) (w : Nat)
    (hr : ∀ r ∈ img, r.length = w) (hne : img ≠ []) (hw : 102 ≤ w) :
    (hist img).length = w ∧
    leftHalf img = (hist img).take (w / 2 - 50) ∧
    rightHalf img = (hist img).drop (w / 2 + 50) ∧
    leftBase img = argmaxList ((hist img).take (w / 2 - 50)) ∧
    rightBase img = (argmaxList ((hist img).drop (w / 2 + 50))).map (fun i => i + w / 2 + 50) ∧
    ((∀ v ∈ hist img, v = 0) →
      leftBase img = some 0 ∧ rightBase img = some (w / 2 + 50)) := by
  have hlen := histLength img w hr hne
  have hlh : leftHalf img = (hist img).take (w / 2 - 50) := by
    unfold leftHalf pySliceTo
    rw [hlen, if_pos (by omega)]
    congr 1
    omega
  have hrh : rightHalf img = (hist img).drop (w / 2 + 50) := by
    unfold rightHalf
    rw [hlen]
  refine ⟨hlen, hlh, hrh, ?_, ?_, ?_⟩
  · unfold leftBase
    rw [hlh]
  · unfold rightBase
    rw [hrh, hlen]
  · intro hz
    constructor
    · unfold leftBase
      rw [hlh]
      apply argmaxList_zero
      · intro hcon
        rcases List.take_eq_nil_iff.mp hcon with h | h
        · omega
        · rw [h] at hlen
          simp at hlen
          omega
      · intro v hv
        exact hz v (List.mem_of_mem_take hv)
    · unfold rightBase
      rw [hrh]
      have h0 : argmaxList ((hist img).drop (w / 2 + 50)) = some 0 := by
        apply argmaxList_zero
        · intro hcon
          have hlc := congrArg List.length hcon
          rw [List.length_drop, hlen] at hlc
          simp at hlc
          omega
        · intro v hv
          exact hz v (List.mem_of_mem_drop hv)
      rw [h0, hlen]
      simp

/-- C8, witness: on the all-zero 2×102 image the profile is entirely zero and
the base estimator returns the degenerate seeds 0 and 101. -/
theorem c8_base_estimator_wit :
    (∀ v ∈ hist zeros102, v = 0) ∧
    leftBase zeros102 = some 0 ∧ rightBase zeros102 = some 101 := by
  have hz : ∀ v ∈ hist zeros102, v = 0 := by decide
  have h := (c8_base_estimator zeros102 102
    (fun r hrr => by
      simp only [zeros102] at hrr
      rw [List.eq_of_mem_replicate hrr]
      simp)
    (by simp [zeros102]) (by omega)).2.2.2.2.2 hz
  exact ⟨hz, by simpa using h⟩

/-- C9, counterexample.  At width 99 the Python stop index `midpoint - 50` is
negative, so the left base-search slice is *not* empty — it has 98 entries
(negative-stop slicing keeps all but the last element) and its argmax
succeeds; the error at this width actually comes from the *right* slice,
which is empty. -/
theorem c9_width99_cex :
    (leftHalf zeros99).length = 98 ∧ leftBase zeros99 = some 0 ∧
      rightHalf zeros99 = [] := by
  refine ⟨?_, ?_, ?_⟩ <;> decide

/-- C9, amended.  For every rectangular 2-D image of width at most 101,
`forward` raises (the `ValueError` of an empty-slice argmax): for widths 100
and 101 — and also 33 and below — the left slice is empty, while for widths
34 to 99 the left slice is nonempty (Python negative-stop slicing) and the
right slice `histogram[midpoint+50:]` is empty.  Both base slices are
nonempty only from width 102 on, so the degenerate-seed behavior needs a
wider image. -/
theorem c9_small_width_error :
    (∀ (c : Consts) (s : LaneLines) (img : Img) (w : Nat),
      (∀ r ∈ img, r.length = w) → img ≠ [] → w ≤ 101 →
      forward c s img = Except.error Err.valueError) ∧
    (∀ (img : Img) (w : Nat),
      (∀ r ∈ img, r.length = w) → img ≠ [] → 102 ≤ w →
      leftHalf img ≠ [] ∧ rightHalf img ≠ []) := by
  constructor
  · intro c s img w hr hne hw
    have hlen := histLength img w hr hne
    apply forward_err
    apply find_lane_pixels_err
    rcases le_or_lt w 99 with h99 | h100
    · right
      have hrh : rightHalf img = [] := by
        unfold rightHalf
        apply List.drop_eq_nil_of_le
        rw [hlen]
        omega
      simp [rightBase, hrh, argmaxList]
    · left
      have hlh : leftHalf img = [] := by
        unfold leftHalf pySliceTo
        rw [hlen]
        rw [show ((w / 2 : Nat) : Int) - 50 = 0 by omega]
        simp
      simp [leftBase, hlh, argmaxList]
  · intro img w hr hne hw
    have hlen := histLength img w hr hne
    constructor
    · unfold leftHalf pySliceTo
      rw [hlen, if_pos (by omega)]
      intro hcon
      rcases List.take_eq_nil_iff.mp hcon with h | h
      · omega
      · rw [h] at hlen
        simp at hlen
        omega
    · unfold rightHalf
      intro hcon
      have hlc := congrArg List.length hcon
      rw [List.length_drop, hlen] at hlc
      simp at hlc
      omega

/-- C9, witness: at width 50 `forward` errors, and at width 102 the left
base-search slice is nonempty. -/
theorem c9_small_width_error_wit :
    forward { WIDTH := 1, HEIGHT := 1 } freshS zeros50 = Except.error Err.valueError ∧
    leftHalf zeros102 ≠ [] := by
  constructor
  · exact c9_small_width_error.1 _ _ _ 50
      (fun r hrr => by
        simp only [zeros50] at hrr
        rw [List.eq_of_mem_replicate hrr]
        simp)
      (by simp [zeros50]) (by omega)
  · exact (c9_small_width_error.2 zeros102 102
      (fun r hrr => by
        simp only [zeros102] at hrr
        rw [List.eq_of_mem_replicate hrr]
        simp)
      (by simp [zeros102]) (by omega)).1

/-- C2, amended.  On the Scenario B image (600 rows, two vertical stripes of
600 foreground pixels at columns 100 and 300, width 400) with a fresh
detector (`nwindows = 1`, `margin = 50`, `minpix = 50`, threshold 500), both
curves come out defined and vertical — but the right stripe's data is
discarded by the equal-count mirroring (`else` branch), so the curves are
`x = 100` and `x = 100 + 800 = 900`, and the returned offset is 500 (their
midpoint) at every reference row, not ≈ 200 (the midpoint of the stripes). -/
theorem c2_stripe_scenario (c : Consts) :
    Except.map (fun r => (r.1.left_fit, r.1.right_fit, r.2.2.1, r.2.2.2))
        (forward c freshS stripeImg) =
      Except.ok (some ((0 : ℚ), (0 : ℚ), (100 : ℚ)), some ((0 : ℚ), (0 : ℚ), (900 : ℚ)),
        true, 500) :=
  stripe_forward c

/-- C2, counterexample.  With `WIDTH = 400` and `HEIGHT = 600` the Scenario B
call succeeds with offset 500, which is 300 columns away from the claimed
≈ 200 midpoint of the two stripe columns. -/
theorem c2_offset_cex :
    Except.map (fun r => (r.1.left_fit, r.1.right_fit, r.2.2.1, r.2.2.2))
        (forward { WIDTH := 400, HEIGHT := 600 } freshS stripeImg) =
      Except.ok (some ((0 : ℚ), (0 : ℚ), (100 : ℚ)), some ((0 : ℚ), (0 : ℚ), (900 : ℚ)),
        true, 500) ∧
    (500 : Int) ≠ 200 ∧ (500 : Int) - 200 = 300 := by
  exact ⟨stripe_forward { WIDTH := 400, HEIGHT := 600 }, by decide, by decide⟩

end LaneDetect
